import Mathlib

set_option maxRecDepth 10000

/-! Verification of the Zulip client adapter layer of TUM CS Bot
(`src/tumcsbot/client.py`): the rate-limit retry loop of
`Client.call_endpoint`, the chunked bulk subscription of
`Client.subscribe_users`, stream lookup (`Client.private_stream_exists`,
`Client.get_streams_from_regex`), the privilege check
`Client.user_is_privileged` and the response dispatcher
`Client.send_responses`.

External collaborators are modelled as oracles: the remote platform API is
a finite trace of response envelopes consumed by successive underlying
calls, and Python's `re` engine is a compile function passed as a
parameter.  Helpers that live in `tumcsbot/lib.py` (a file of this
repository that is not part of the sources at hand) are modelled from the
specification and marked as such in their doc comments. -/

namespace Tumcsbot

/-- Response envelope of the remote platform API: a dict carrying a
`result` key and optional `code`, `principal` and `retry-after` keys
(an absent key is `none`).  These are exactly the keys read by
`Client.call_endpoint` and `Client.subscribe_users`. -/
structure ApiResult where
  result : String
  code : Option String := none
  principal : Option Int := none
  retryAfter : Option ℚ := none
deriving DecidableEq, Repr

/-- The loop guard of `Client.call_endpoint`: the envelope reports an
error, has a `code` key, and the code is `RATE_LIMIT_HIT`. -/
def isRateLimitHit (r : ApiResult) : Bool :=
  r.result == "error" && r.code == some "RATE_LIMIT_HIT"

/-- Model of `Client.call_endpoint`.  The behaviour of the underlying
`zulip.Client.call_endpoint` is the oracle `trace`: the finite list of
envelopes returned by the successive underlying calls.  The result is the
envelope the loop returns, together with the chronological list of sleep
durations (seconds, `retry-after` defaulting to 1) and the list of
requests issued to the underlying client; it is `none` when the trace is
exhausted while still rate-limited (the loop would retry further). -/
def call_endpoint {α : Type} (req : α) :
    List ApiResult → Option (ApiResult × List ℚ × List α)
  | [] => none
  | r :: rest =>
    if isRateLimitHit r then
      match call_endpoint req rest with
      | none => none
      | some (res, sleeps, reqs) =>
        some (res, (r.retryAfter.getD 1) :: sleeps, req :: reqs)
    else
      some (r, [], [req])

/-- C1: for a response trace consisting of finitely many `RATE_LIMIT_HIT`
error envelopes followed by a non-rate-limit envelope, `call_endpoint`
sleeps the signaled `retry-after` seconds (default 1 when the field is
absent) before each reissue of the identical request, terminates, and
returns that first non-rate-limit envelope unchanged. -/
theorem call_endpoint_rate_limit_retry {α : Type} (req : α)
    (pre : List ApiResult) (r : ApiResult) (post : List ApiResult)
    (hpre : ∀ x ∈ pre, isRateLimitHit x = true)
    (hr : isRateLimitHit r = false) :
    call_endpoint req (pre ++ r :: post) =
      some (r, pre.map (fun x => x.retryAfter.getD 1),
        List.replicate (pre.length + 1) req) := by
  induction pre with
  | nil => simp [call_endpoint, hr]
  | cons a l ih =>
    have ha : isRateLimitHit a = true := hpre a (by simp)
    have hl : ∀ x ∈ l, isRateLimitHit x = true :=
      fun x hx => hpre x (by simp [hx])
    simp [call_endpoint, ha, ih hl, List.replicate_succ]

/-- Witness for C1 at a concrete trace: two rate-limit envelopes (one with
`retry-after` 2, one without) followed by a success envelope. -/
theorem call_endpoint_rate_limit_retry_witness :
    call_endpoint (0 : Nat)
        ([⟨"error", some "RATE_LIMIT_HIT", none, some 2⟩,
          ⟨"error", some "RATE_LIMIT_HIT", none, none⟩] ++
          ⟨"success", none, none, none⟩ :: []) =
      some (⟨"success", none, none, none⟩, [2, 1], List.replicate 3 0) := by
  have h := call_endpoint_rate_limit_retry (0 : Nat)
    [⟨"error", some "RATE_LIMIT_HIT", none, some 2⟩,
     ⟨"error", some "RATE_LIMIT_HIT", none, none⟩]
    ⟨"success", none, none, none⟩ []
    (by decide) (by decide)
  simpa using h

/-- Outcome of running a loop of `Client.subscribe_users` against a finite
oracle trace: a normal return value, an uncaught Python exception
(`KeyError` from `result['code']` on an envelope without a `code` key,
`ValueError` from `list.remove` when the principal is not in the chunk),
or exhaustion of the oracle trace (the code would issue a further call). -/
inductive Run (α : Type) where
  | ok (a : α)
  | keyError
  | valueError
  | outOfTrace
deriving DecidableEq, Repr

/-- The inner `while True` loop of `Client.subscribe_users`, run on one
chunk.  Each consumed envelope is the outcome of one
`self.add_subscriptions(streams, principals = chunk)` call.  On a normal
exit it returns the `success`-flag contribution of this chunk (`false`
exactly when the loop hit the `logging.warning` branch), the unconsumed
trace, and the chronological list of principals lists passed to the
issued calls. -/
def chunkLoop : List Int → List ApiResult →
    Run (Bool × List ApiResult × List (List Int))
  | _, [] => Run.outOfTrace
  | chunk, r :: rest =>
    if r.result == "success" then Run.ok (true, rest, [chunk])
    else
      match r.code with
      | none => Run.keyError
      | some c =>
        if c == "UNAUTHORIZED_PRINCIPAL" then
          match r.principal with
          | some p =>
            if p ∈ chunk then
              match chunkLoop (chunk.erase p) rest with
              | Run.ok (b, t, cs) => Run.ok (b, t, chunk :: cs)
              | e => e
            else Run.valueError
          | none => Run.ok (false, rest, [chunk])
        else Run.ok (false, rest, [chunk])

/-- Partition of a list into consecutive chunks of size `n` preserving
order: chunk `k` is the slice `xs[n*k : n*k + n]`, exactly the successive
slices `user_ids[i : i + chunk_size]`, `i = 0, n, 2n, ...`, taken by the
loop `for i in range(0, len(user_ids), chunk_size)` of
`Client.subscribe_users`. -/
def chunksOf {α : Type} (n : Nat) (xs : List α) : List (List α) :=
  (List.range ((xs.length + n - 1) / n)).map (fun k => (xs.drop (n * k)).take n)

/-- The outer `for` loop of `Client.subscribe_users`, iterating over the
successive slices and threading the `success` flag. -/
def subscribe_users_go : List (List Int) → List ApiResult → Bool →
    Run (Bool × List (List Int))
  | [], _, success => Run.ok (success, [])
  | chunk :: chunks, trace, success =>
    match chunkLoop chunk trace with
    | Run.ok (chunkOk, rest, calls) =>
      match subscribe_users_go chunks rest (success && chunkOk) with
      | Run.ok (b, calls2) => Run.ok (b, calls ++ calls2)
      | e => e
    | Run.keyError => Run.keyError
    | Run.valueError => Run.valueError
    | Run.outOfTrace => Run.outOfTrace

/-- Model of `Client.subscribe_users` with `chunk_size = 100`.
`stream_is_private` is the oracle for
`self.private_stream_exists(stream_name)` (only consulted when
`allow_private_streams` is false, matching the short-circuit in the
source); `trace` is the oracle for the successive
`self.add_subscriptions` calls.  Returns the boolean result together
with the list of principals lists passed to the issued subscription
calls. -/
def subscribe_users (user_ids : List Int) (stream_is_private : Bool)
    (allow_private_streams : Bool) (trace : List ApiResult) :
    Run (Bool × List (List Int)) :=
  if !allow_private_streams && stream_is_private then Run.ok (false, [])
  else subscribe_users_go (chunksOf 100 user_ids) trace true

/-- The success envelope of the platform API. -/
def succR : ApiResult := ⟨"success", none, none, none⟩

/-- The identity ids 0, ..., 249 of the 250-identity example. -/
def ids250 : List Int := (List.range 250).map Int.ofNat

/-- The identity ids 0, ..., 149 of the two-chunk example. -/
def ids150 : List Int := (List.range 150).map Int.ofNat

/-- Unfolding step of the chunk partition on a nonempty list. -/
theorem chunksOf_cons {α : Type} (n : Nat) (hn : 0 < n) (xs : List α)
    (hxs : xs ≠ []) : chunksOf n xs = xs.take n :: chunksOf n (xs.drop n) := by
  have hlen : 0 < xs.length := List.length_pos.mpr hxs
  have hnum : (xs.length + n - 1) / n = ((xs.drop n).length + n - 1) / n + 1 := by
    simp only [List.length_drop]
    have h1 : xs.length + n - 1 = (xs.length - 1) + n := by omega
    rw [h1, Nat.add_div_right _ hn]
    rcases Nat.lt_or_ge xs.length n with h | h
    · have h2 : xs.length - n = 0 := by omega
      rw [h2, Nat.div_eq_of_lt (by omega), Nat.div_eq_of_lt (by omega)]
    · have h2 : xs.length - n + n - 1 = xs.length - 1 := by omega
      rw [h2]
  rw [chunksOf, hnum, List.range_succ_eq_map, List.map_cons, List.map_map]
  simp only [Nat.mul_zero, List.drop_zero]
  congr 1
  rw [chunksOf]
  apply List.map_congr_left
  intro k _
  simp only [Function.comp_apply, List.drop_drop]
  congr 2
  simp [Nat.mul_succ, Nat.add_comm]

/-- Concatenating the chunks gives back the original list: the partition
is consecutive and order-preserving. -/
theorem chunksOf_flatten {α : Type} (n : Nat) (hn : 0 < n) (xs : List α) :
    (chunksOf n xs).flatten = xs := by
  suffices h : ∀ L (ys : List α), ys.length = L → (chunksOf n ys).flatten = ys from
    h xs.length xs rfl
  intro L
  induction L using Nat.strong_induction_on with
  | _ L ih =>
    intro ys hL
    rcases eq_or_ne ys [] with rfl | hys
    · simp [chunksOf]
    · have hlen : 0 < ys.length := List.length_pos.mpr hys
      rw [chunksOf_cons n hn ys hys, List.flatten_cons]
      have hdrop : (ys.drop n).length < L := by
        simp only [List.length_drop]
        omega
      rw [ih _ hdrop (ys.drop n) rfl, List.take_append_drop]

/-- Every chunk of the partition has length at most `n`. -/
theorem chunksOf_length_le {α : Type} (n : Nat) (xs : List α) :
    ∀ c ∈ chunksOf n xs, c.length ≤ n := by
  intro c hc
  rw [chunksOf] at hc
  obtain ⟨k, -, rfl⟩ := List.mem_map.mp hc
  exact List.length_take_le n _

/-- On an all-success trace the outer loop submits exactly its chunks, in
order, and leaves the success flag untouched. -/
theorem subscribe_users_go_all_success (chunks : List (List Int)) :
    ∀ (trace : List ApiResult), (∀ r ∈ trace, r.result = "success") →
    ∀ (s b : Bool) (calls : List (List Int)),
      subscribe_users_go chunks trace s = Run.ok (b, calls) →
      b = s ∧ calls = chunks := by
  induction chunks with
  | nil =>
    intro trace htr s b calls h
    simp only [subscribe_users_go, Run.ok.injEq, Prod.mk.injEq] at h
    exact ⟨h.1.symm, h.2.symm⟩
  | cons chunk chunks ih =>
    intro trace htr s b calls h
    match trace with
    | [] => simp [subscribe_users_go, chunkLoop] at h
    | r :: rest =>
      have hr : r.result = "success" := htr r (by simp)
      have hrest : ∀ x ∈ rest, x.result = "success" :=
        fun x hx => htr x (by simp [hx])
      rw [subscribe_users_go] at h
      simp only [chunkLoop, hr, beq_self_eq_true, if_true] at h
      rcases hgo : subscribe_users_go chunks rest (s && true) with
        ⟨⟨b2, calls2⟩⟩ | _ | _ | _ <;> rw [hgo] at h <;>
        simp only [Run.ok.injEq, Prod.mk.injEq, reduceCtorEq] at h
      obtain ⟨hb, hcalls⟩ := h
      obtain ⟨hb2, hcalls2⟩ := ih rest hrest (s && true) b2 calls2 hgo
      subst hcalls hcalls2
      constructor
      · rw [← hb, hb2, Bool.and_true]
      · rfl
/-- C2: `subscribe_users` partitions the identity list into consecutive
chunks of size 100 preserving order (the chunks concatenate back to the
input, none exceeds 100, and on a trace where every subscription call
succeeds the issued calls are exactly the chunks); for 250 ids against a
non-private target channel with three successful calls it issues exactly
the 3 chunks of sizes 100, 100, 50 in input order and returns true; and
when `allow_private_streams` is false and the channel is private it
returns false without issuing any subscription call. -/
theorem subscribe_users_chunking :
    (∀ ids : List Int, (chunksOf 100 ids).flatten = ids) ∧
    (∀ ids : List Int, ∀ c ∈ chunksOf 100 ids, c.length ≤ 100) ∧
    (∀ (ids : List Int) (trace : List ApiResult) (b : Bool)
        (calls : List (List Int)),
      (∀ r ∈ trace, r.result = "success") →
      subscribe_users ids false false trace = Run.ok (b, calls) →
      b = true ∧ calls = chunksOf 100 ids) ∧
    (subscribe_users ids250 false false [succR, succR, succR] =
      Run.ok (true, chunksOf 100 ids250)) ∧
    ((chunksOf 100 ids250).map List.length = [100, 100, 50]) ∧
    (∀ (ids : List Int) (trace : List ApiResult),
      subscribe_users ids true false trace = Run.ok (false, [])) := by
  refine ⟨fun ids => chunksOf_flatten 100 (by omega) ids,
    fun ids => chunksOf_length_le 100 ids, ?_, by decide, by decide, ?_⟩
  · intro ids trace b calls htr h
    rw [subscribe_users] at h
    simp only [Bool.and_false, Bool.false_and, Bool.not_false, Bool.and_self] at h
    exact subscribe_users_go_all_success (chunksOf 100 ids) trace htr true b calls h
  · intro ids trace
    rw [subscribe_users]
    rfl

/-- Witness for C2: the all-success clause applied to a single identity
and a one-call trace. -/
theorem subscribe_users_chunking_witness :
    true = true ∧ [[(5 : Int)]] = chunksOf 100 [(5 : Int)] :=
  subscribe_users_chunking.2.2.1 [5] [succR] true [[5]]
    (by decide) (by decide)
/-- A response on which the inner loop of `Client.subscribe_users` never
takes the `logging.warning` failure branch: either a success, or an
`UNAUTHORIZED_PRINCIPAL` error that names a principal. -/
def goodResp (r : ApiResult) : Bool :=
  r.result == "success" ||
    (r.code == some "UNAUTHORIZED_PRINCIPAL" && r.principal.isSome)

/-- On a trace of good responses the inner loop, when it exits normally,
reports chunk success and leaves only good responses unconsumed. -/
theorem chunkLoop_good (chunk : List Int) (trace : List ApiResult)
    (htr : ∀ r ∈ trace, goodResp r = true) :
    ∀ (b : Bool) (rest : List ApiResult) (cs : List (List Int)),
      chunkLoop chunk trace = Run.ok (b, rest, cs) →
      b = true ∧ ∀ r ∈ rest, goodResp r = true := by
  induction trace generalizing chunk with
  | nil =>
    intro b rest cs h
    simp [chunkLoop] at h
  | cons r rs ih =>
    intro b rest cs h
    have hr : goodResp r = true := htr r (by simp)
    have hrs : ∀ x ∈ rs, goodResp x = true := fun x hx => htr x (by simp [hx])
    by_cases hs : r.result == "success"
    · rw [chunkLoop, if_pos hs] at h
      simp only [Run.ok.injEq, Prod.mk.injEq] at h
      obtain ⟨hb, hrest, -⟩ := h
      exact ⟨hb.symm, hrest ▸ hrs⟩
    · rw [goodResp, Bool.or_eq_true] at hr
      rcases hr with hr | hr
      · exact absurd hr hs
      · rw [Bool.and_eq_true] at hr
        obtain ⟨hcode, hprin⟩ := hr
        have hcode' : r.code = some "UNAUTHORIZED_PRINCIPAL" := by
          exact eq_of_beq hcode
        obtain ⟨p, hp⟩ := Option.isSome_iff_exists.mp hprin
        rw [chunkLoop, if_neg hs, hcode', hp] at h
        simp only [beq_self_eq_true, if_true] at h
        by_cases hmem : p ∈ chunk
        · rw [if_pos hmem] at h
          rcases hcl : chunkLoop (chunk.erase p) rs with ⟨⟨b2, t2, cs2⟩⟩ | _ | _ | _ <;>
            rw [hcl] at h <;>
            simp only [Run.ok.injEq, Prod.mk.injEq, reduceCtorEq] at h
          obtain ⟨hb, hrest, -⟩ := h
          obtain ⟨hb2, ht2⟩ := ih (chunk.erase p) hrs b2 t2 cs2 hcl
          exact ⟨hb ▸ hb2, hrest ▸ ht2⟩
        · rw [if_neg hmem] at h
          simp at h

/-- On a trace of good responses the outer loop preserves a true success
flag. -/
theorem subscribe_users_go_good (chunks : List (List Int)) :
    ∀ (trace : List ApiResult), (∀ r ∈ trace, goodResp r = true) →
    ∀ (b : Bool) (calls : List (List Int)),
      subscribe_users_go chunks trace true = Run.ok (b, calls) →
      b = true := by
  induction chunks with
  | nil =>
    intro trace htr b calls h
    simp only [subscribe_users_go, Run.ok.injEq, Prod.mk.injEq] at h
    exact h.1.symm
  | cons chunk chunks ih =>
    intro trace htr b calls h
    rw [subscribe_users_go] at h
    rcases hcl : chunkLoop chunk trace with ⟨⟨b1, rest, calls1⟩⟩ | _ | _ | _ <;>
      rw [hcl] at h
    · obtain ⟨hb1, hrest⟩ := chunkLoop_good chunk trace htr b1 rest calls1 hcl
      subst hb1
      have h2 : (match subscribe_users_go chunks rest (true && true) with
          | Run.ok (b2, calls2) => Run.ok (b2, calls1 ++ calls2)
          | e => e) = Run.ok (b, calls) := h
      rcases hgo : subscribe_users_go chunks rest (true && true) with
        ⟨⟨b2, calls2⟩⟩ | _ | _ | _ <;> rw [hgo] at h2 <;>
        simp only [Run.ok.injEq, Prod.mk.injEq, reduceCtorEq] at h2
      obtain ⟨hb, -⟩ := h2
      rw [Bool.and_self] at hgo
      exact hb ▸ ih rest hrest b2 calls2 hgo
    · simp at h
    · simp at h
    · simp at h

/-- The `UNAUTHORIZED_PRINCIPAL` envelope naming identity 150. -/
def unauth150 : ApiResult := ⟨"error", some "UNAUTHORIZED_PRINCIPAL", some 150, none⟩

/-- C3: when a subscription call for a chunk fails with error code
`UNAUTHORIZED_PRINCIPAL` naming a principal identity in the chunk, the
loop removes exactly that identity from the current chunk and retries the
same chunk without advancing to the next chunk; a run in which every
response is either a success or such a recoverable rejection still
returns true; and in the 250-identity example with chunk 2 first rejected
for identity 150, chunk 2 is retried with 150 removed and the overall
call returns true. -/
theorem subscribe_users_unauthorized_principal_recovery :
    (∀ (chunk : List Int) (r : ApiResult) (rest : List ApiResult) (p : Int),
      r.result ≠ "success" →
      r.code = some "UNAUTHORIZED_PRINCIPAL" → r.principal = some p →
      p ∈ chunk →
      chunkLoop chunk (r :: rest) =
        (match chunkLoop (chunk.erase p) rest with
         | Run.ok (b, t, cs) => Run.ok (b, t, chunk :: cs)
         | e => e)) ∧
    (∀ (ids : List Int) (trace : List ApiResult) (b : Bool)
        (calls : List (List Int)),
      (∀ r ∈ trace, goodResp r = true) →
      subscribe_users ids false false trace = Run.ok (b, calls) →
      b = true) ∧
    (subscribe_users ids250 false false [succR, unauth150, succR, succR] =
      Run.ok (true, [ids250.take 100, (ids250.drop 100).take 100,
        ((ids250.drop 100).take 100).erase 150, (ids250.drop 200).take 100])) := by
  refine ⟨?_, ?_, by decide⟩
  · intro chunk r rest p hs hcode hp hmem
    have hs' : (r.result == "success") = false := by
      simpa using hs
    rw [chunkLoop, if_neg (by simp [hs']), hcode, hp]
    simp only [beq_self_eq_true, if_true, if_pos hmem]
  · intro ids trace b calls htr h
    rw [subscribe_users] at h
    simp only [Bool.and_false, Bool.false_and, Bool.not_false, Bool.and_self] at h
    exact subscribe_users_go_good (chunksOf 100 ids) trace htr b calls h

/-- Witness for C3: the retry clause applied to the chunk `[1, 2]` and an
`UNAUTHORIZED_PRINCIPAL` rejection of identity 2, followed by a success:
the same chunk is retried with 2 removed. -/
theorem subscribe_users_unauthorized_principal_recovery_witness :
    chunkLoop [1, 2]
        [⟨"error", some "UNAUTHORIZED_PRINCIPAL", some 2, none⟩, succR] =
      Run.ok (true, [], [[1, 2], [1]]) := by
  have h := subscribe_users_unauthorized_principal_recovery.1 [1, 2]
    ⟨"error", some "UNAUTHORIZED_PRINCIPAL", some 2, none⟩ [succR] 2
    (by decide) rfl rfl (by decide)
  rw [h]
  decide
/-- Counterexample to C4: an error envelope that carries no `code` field
does not make `subscribe_users` log, record failure and continue — the
unconditional `result['code']` access raises an uncaught `KeyError`
instead, so the call never returns a boolean at all. -/
theorem subscribe_users_missing_code_counterexample :
    subscribe_users [1] false false [⟨"error", none, none, none⟩] =
      Run.keyError ∧
    (Run.keyError : Run (Bool × List (List Int))) ≠
      Run.ok (false, [[(1 : Int)]]) := by decide

/-- C4 (amended): for a chunk whose subscription call fails with an error
envelope that does carry a `code` field, with any code other than an
`UNAUTHORIZED_PRINCIPAL` naming a principal, the loop logs the failure,
contributes `false` to the overall result, abandons the current chunk and
continues with the remaining chunks; once the success flag is false the
overall result is false, so the call returns true only if no chunk
produced such an unrecoverable failure; an error envelope carrying no
`code` field instead raises an uncaught `KeyError`. -/
theorem subscribe_users_unrecoverable_failure :
    (∀ (chunk : List Int) (r : ApiResult) (rest : List ApiResult) (c : String),
      r.result ≠ "success" → r.code = some c →
      (c = "UNAUTHORIZED_PRINCIPAL" → r.principal = none) →
      chunkLoop chunk (r :: rest) = Run.ok (false, rest, [chunk])) ∧
    (∀ (chunk : List Int) (r : ApiResult) (rest : List ApiResult),
      r.result ≠ "success" → r.code = none →
      chunkLoop chunk (r :: rest) = Run.keyError) ∧
    (∀ (chunks : List (List Int)) (trace : List ApiResult) (b : Bool)
        (calls : List (List Int)),
      subscribe_users_go chunks trace false = Run.ok (b, calls) →
      b = false) ∧
    (subscribe_users ids150 false false
        [⟨"error", some "BAD_REQUEST", none, none⟩, succR] =
      Run.ok (false, [ids150.take 100, (ids150.drop 100).take 100])) := by
  refine ⟨?_, ?_, ?_, by decide⟩
  · intro chunk r rest c hs hcode hprin
    have hs' : (r.result == "success") = false := by simpa using hs
    rw [chunkLoop, if_neg (by simp [hs']), hcode]
    by_cases hc : c = "UNAUTHORIZED_PRINCIPAL"
    · rw [hprin hc, hc]
      simp
    · simp [hc]
  · intro chunk r rest hs hcode
    have hs' : (r.result == "success") = false := by simpa using hs
    rw [chunkLoop, if_neg (by simp [hs']), hcode]
  · intro chunks
    induction chunks with
    | nil =>
      intro trace b calls h
      simp only [subscribe_users_go, Run.ok.injEq, Prod.mk.injEq] at h
      exact h.1.symm
    | cons chunk chunks ih =>
      intro trace b calls h
      rw [subscribe_users_go] at h
      rcases hcl : chunkLoop chunk trace with ⟨⟨b1, rest, calls1⟩⟩ | _ | _ | _ <;>
        rw [hcl] at h
      · have h2 : (match subscribe_users_go chunks rest (false && b1) with
            | Run.ok (b2, calls2) => Run.ok (b2, calls1 ++ calls2)
            | e => e) = Run.ok (b, calls) := h
        rcases hgo : subscribe_users_go chunks rest (false && b1) with
          ⟨⟨b2, calls2⟩⟩ | _ | _ | _ <;> rw [hgo] at h2 <;>
          simp only [Run.ok.injEq, Prod.mk.injEq, reduceCtorEq] at h2
        obtain ⟨hb, -⟩ := h2
        rw [Bool.false_and] at hgo
        exact hb ▸ ih rest b2 calls2 hgo
      · simp at h
      · simp at h
      · simp at h

/-- Witness for C4 (amended): the abandon-and-continue clause applied to
the chunk `[3]` and a `BAD_REQUEST` error envelope. -/
theorem subscribe_users_unrecoverable_failure_witness :
    chunkLoop [3] [⟨"error", some "BAD_REQUEST", none, none⟩, succR] =
      Run.ok (false, [succR], [[3]]) :=
  subscribe_users_unrecoverable_failure.1 [3]
    ⟨"error", some "BAD_REQUEST", none, none⟩ [succR] "BAD_REQUEST"
    (by decide) rfl (by decide)
/-- A dynamically typed Python value, as far as the `isinstance` checks of
`Client.user_is_privileged` distinguish them: an int, a bool, or any
other value. -/
inductive PyVal where
  | int (n : Int)
  | bool (b : Bool)
  | other
deriving DecidableEq, Repr

/-- The profile dict of a user as read by `Client.user_is_privileged`:
the optional `role` and `is_admin` keys (an absent key is `none`). -/
structure UserProfile where
  role : Option PyVal := none
  is_admin : Option PyVal := none
deriving DecidableEq, Repr

/-- Envelope of `self.get_user_by_id(user_id)`: the `result` key and the
`user` payload. -/
structure UserResult where
  result : String
  user : UserProfile
deriving DecidableEq, Repr

/-- Model of `Client.user_is_privileged`, applied to the envelope the
profile fetch for the examined user returns. -/
def user_is_privileged (res : UserResult) : Bool :=
  if res.result ≠ "success" then false
  else
    let user := res.user
    if (match user.role with
        | some (PyVal.int n) => n == 100 || n == 200
        | _ => false) then true
    else
      match user.is_admin with
      | some (PyVal.bool b) => b
      | _ => false

/-- C5: `Client.user_is_privileged` contradicts its own docstring.  The
docstring says that since Zulip 4.0 (the platform versions exposing the
structured `role` field and its third tier) the organization moderator
role is privileged, but the code accepts only the role values 100
(owner) and 200 (administrator): a moderator profile (`role = 300`, no
legacy admin flag) is classified unprivileged.  The remaining clauses of
the claim hold: owner and administrator roles yield true, a failed fetch
yields false, the legacy boolean `is_admin` flag is the fallback, and
false is returned when neither signal is present. -/
theorem user_is_privileged_moderator_gap :
    user_is_privileged ⟨"success", ⟨some (PyVal.int 300), none⟩⟩ = false ∧
    user_is_privileged ⟨"success", ⟨some (PyVal.int 100), none⟩⟩ = true ∧
    user_is_privileged ⟨"success", ⟨some (PyVal.int 200), none⟩⟩ = true ∧
    user_is_privileged ⟨"error", ⟨some (PyVal.int 200), none⟩⟩ = false ∧
    user_is_privileged
      ⟨"success", ⟨some (PyVal.int 300), some (PyVal.bool true)⟩⟩ = true ∧
    user_is_privileged ⟨"success", ⟨none, some (PyVal.bool false)⟩⟩ = false ∧
    user_is_privileged ⟨"success", ⟨none, none⟩⟩ = false := by decide

/-- C6: `Client.user_is_privileged` returns true for a profile with
`role = 200` and false for a profile with `role = 300` and no legacy
admin flag. -/
theorem user_is_privileged_role_values :
    user_is_privileged ⟨"success", ⟨some (PyVal.int 200), none⟩⟩ = true ∧
    user_is_privileged ⟨"success", ⟨some (PyVal.int 300), none⟩⟩ = false := by
  decide

/-- Model of `Client.get_streams_from_regex`.  Python's `re` engine is the
oracle `compile`: `compile regex` is `none` when `re.compile(regex,
flags = re.I)` raises `re.error`, and otherwise returns the predicate
`fun s => pat.fullmatch(s) is not None` of the compiled pattern.  The
names returned by `self.get_public_stream_names()` are the parameter
`public_stream_names`. -/
def get_streams_from_regex (compile : String → Option (String → Bool))
    (public_stream_names : List String) (regex : String) : List String :=
  if regex = "" then []
  else
    match compile regex with
    | none => []
    | some fullmatch => public_stream_names.filter (fun s => fullmatch s)

/-- ASCII lowercasing of a string, character by character. -/
def lowerStr (s : String) : String := String.mk (s.data.map Char.toLower)

/-- Model of `re.compile(pattern, flags = re.I)` followed by
`Pattern.fullmatch`, restricted to the fragment exercised here: a pattern
built only from literal characters (letters, digits, space, dash,
underscore) compiles, and full-matches exactly the strings equal to it up
to ASCII case; any other pattern (such as one with an unmatched `[`,
which raises `re.error`) is rejected. -/
def literalCompileI (pattern : String) : Option (String → Bool) :=
  if pattern.toList.all (fun ch =>
      ch.isAlphanum || ch == '-' || ch == ' ' || ch == '_') then
    some (fun s => lowerStr s == lowerStr pattern)
  else none

/-- C7: `Client.get_streams_from_regex` returns the empty list for the
empty pattern and for any pattern the engine fails to compile; for a
compiling non-empty pattern it returns exactly the public stream names
the pattern full-matches (case-insensitively, by the `re.I` flag baked
into the compiled predicate); against the streams `general`,
`General-chat`, `random` the pattern `general` yields exactly
`general`, and the pattern `[invalid` fails to compile and yields the
empty list. -/
theorem get_streams_from_regex_spec :
    (∀ (compile : String → Option (String → Bool)) (names : List String),
      get_streams_from_regex compile names "" = []) ∧
    (∀ (compile : String → Option (String → Bool)) (names : List String)
        (regex : String),
      compile regex = none → get_streams_from_regex compile names regex = []) ∧
    (∀ (compile : String → Option (String → Bool)) (names : List String)
        (regex : String) (m : String → Bool),
      regex ≠ "" → compile regex = some m →
      get_streams_from_regex compile names regex =
        names.filter (fun s => m s)) ∧
    (literalCompileI "[invalid" = none) ∧
    (get_streams_from_regex literalCompileI
      ["general", "General-chat", "random"] "[invalid" = []) ∧
    (get_streams_from_regex literalCompileI
      ["general", "General-chat", "random"] "general" = ["general"]) := by
  refine ⟨fun compile names => rfl, ?_, ?_, rfl, rfl, by decide⟩
  · intro compile names regex hc
    rw [get_streams_from_regex]
    split
    · rfl
    · rw [hc]
  · intro compile names regex m hne hc
    rw [get_streams_from_regex, if_neg hne, hc]

/-- Witness for C7: the failed-compile clause applied to the literal
engine and the pattern with an unmatched bracket. -/
theorem get_streams_from_regex_spec_witness :
    get_streams_from_regex literalCompileI ["a", "b"] "[invalid" = [] :=
  get_streams_from_regex_spec.2.1 literalCompileI ["a", "b"] "[invalid" rfl
/-- Modelled from the spec: the `MessageType` tag of `tumcsbot.lib`
(`lib.py` is not among the sources at hand).  An outbound action kind:
a message send, an emoji reaction, or a kind the dispatcher does not
recognize. -/
inductive MessageType where
  | MESSAGE
  | EMOJI
  | NONE
deriving DecidableEq, Repr

/-- Modelled from the spec: the `Response` value of `tumcsbot.lib`: an
outbound action, i.e. a kind tag together with the payload dict (kept
opaque as `α`) handed to the send operation. -/
structure Response (α : Type) where
  message_type : MessageType
  response : α
deriving DecidableEq, Repr

/-- A send operation issued by `Client.send_response` to the underlying
transport: `self.send_message(payload)` or `self.add_reaction(payload)`. -/
inductive SendCall (α : Type) where
  | send_message (payload : α)
  | add_reaction (payload : α)
deriving DecidableEq, Repr

/-- The argument shape accepted by `Client.send_responses`: a single
non-iterable `Response`, or an iterable of such trees (the runtime
`isinstance(responses, Iterable)` check distinguishes the two). -/
inductive RTree (α : Type) where
  | resp (r : Response α)
  | iter (children : List (RTree α))

/-- Model of `Client.send_response`: the send operations (none or one)
issued for a single response. -/
def send_response {α : Type} (r : Response α) : List (SendCall α) :=
  match r.message_type with
  | MessageType.MESSAGE => [SendCall.send_message r.response]
  | MessageType.EMOJI => [SendCall.add_reaction r.response]
  | MessageType.NONE => []

mutual

/-- Model of `Client.send_responses` on one tree: a single response is
sent directly, an iterable is traversed in order, recursing on each
element. -/
def sendTree {α : Type} : RTree α → List (SendCall α)
  | RTree.resp r => send_response r
  | RTree.iter cs => sendForest cs

/-- The `for response in responses: self.send_responses(response)` loop. -/
def sendForest {α : Type} : List (RTree α) → List (SendCall α)
  | [] => []
  | t :: ts => sendTree t ++ sendForest ts

end

mutual

/-- Depth-first leaf sequence of a response tree: the plugin's emission
order. -/
def flattenTree {α : Type} : RTree α → List (Response α)
  | RTree.resp r => [r]
  | RTree.iter cs => flattenForest cs

/-- Depth-first leaf sequence of a list of response trees. -/
def flattenForest {α : Type} : List (RTree α) → List (Response α)
  | [] => []
  | t :: ts => flattenTree t ++ flattenForest ts

end

/-- Model of `Client.send_responses` including the `responses is None`
no-op guard. -/
def send_responses {α : Type} : Option (RTree α) → List (SendCall α)
  | none => []
  | some t => sendTree t

mutual

/-- Dispatch equals depth-first flattening followed by per-leaf sends. -/
theorem sendTree_eq_flatten {α : Type} (t : RTree α) :
    sendTree t = (flattenTree t).flatMap send_response := by
  match t with
  | RTree.resp r => simp [sendTree, flattenTree]
  | RTree.iter cs => simp [sendTree, flattenTree, sendForest_eq_flatten cs]

/-- Dispatch of a forest equals depth-first flattening followed by
per-leaf sends. -/
theorem sendForest_eq_flatten {α : Type} (cs : List (RTree α)) :
    sendForest cs = (flattenForest cs).flatMap send_response := by
  match cs with
  | [] => simp [sendForest, flattenForest]
  | t :: ts =>
    simp [sendForest, flattenForest, sendTree_eq_flatten t,
      sendForest_eq_flatten ts]

end

/-- C8: `Client.send_responses` flattens a possibly-nested ordered
collection depth-first and issues the leaf send operations in exactly the
plugin's emission order; a leaf with an unrecognized action kind produces
no call rather than a failure; an absent (`None`) responses value is a
no-op; and the nested example `[[m1], [], [r1, m2]]` sends `m1`, `r1`,
`m2` in that order. -/
theorem send_responses_dispatch_order :
    (∀ (α : Type) (t : RTree α),
      sendTree t = (flattenTree t).flatMap send_response) ∧
    (∀ (α : Type) (p : α), send_response ⟨MessageType.NONE, p⟩ = []) ∧
    (∀ (α : Type), send_responses (none : Option (RTree α)) = []) ∧
    (send_responses (some (RTree.iter
        [RTree.iter [RTree.resp ⟨MessageType.MESSAGE, "m1"⟩],
         RTree.iter [],
         RTree.iter [RTree.resp ⟨MessageType.EMOJI, "r1"⟩,
           RTree.resp ⟨MessageType.MESSAGE, "m2"⟩]])) =
      [SendCall.send_message "m1", SendCall.add_reaction "r1",
       SendCall.send_message "m2"]) :=
  ⟨fun _ t => sendTree_eq_flatten t, fun _ _ => rfl, fun _ => rfl, by decide⟩

/-- Record of one stream in a `self.get_streams(include_all_active =
True)` listing: its name and its `invite_only` visibility flag. -/
structure StreamRec where
  name : String
  invite_only : Bool
deriving DecidableEq, Repr

/-- Envelope of `self.get_streams(include_all_active = True)`: the
`result` key and the `streams` list. -/
structure StreamsResult where
  result : String
  streams : List StreamRec
deriving DecidableEq, Repr

/-- Modelled from the spec: `stream_names_equal` of `tumcsbot.lib`
(`lib.py` is not among the sources at hand): case-insensitive channel
name comparison. -/
def stream_names_equal (a b : String) : Bool := lowerStr a == lowerStr b

/-- Model of `Client.private_stream_exists`, applied to the envelope the
stream listing call returns: false on a listing error, otherwise the
`invite_only` flag of the first stream whose name matches
case-insensitively, and false when none matches. -/
def private_stream_exists (res : StreamsResult) (stream_name : String) :
    Bool :=
  if res.result ≠ "success" then false
  else
    match res.streams.find? (fun s => stream_names_equal s.name stream_name) with
    | some s => s.invite_only
    | none => false

/-- C9: `Client.private_stream_exists` compares channel names
case-insensitively; it returns false both when the listing call reports
an error and when no channel of the given name exists, and returns the
channel's private-visibility (`invite_only`) flag when a matching channel
is found.  The concrete clauses exercise the case-insensitive match in
both directions of the visibility flag. -/
theorem private_stream_exists_spec :
    (∀ (res : StreamsResult) (name : String),
      res.result ≠ "success" → private_stream_exists res name = false) ∧
    (∀ (res : StreamsResult) (name : String),
      res.streams.find? (fun s => stream_names_equal s.name name) = none →
      private_stream_exists res name = false) ∧
    (∀ (res : StreamsResult) (name : String) (s : StreamRec),
      res.result = "success" →
      res.streams.find? (fun s => stream_names_equal s.name name) = some s →
      private_stream_exists res name = s.invite_only) ∧
    (private_stream_exists ⟨"success", [⟨"General", true⟩]⟩ "gEnErAl" = true) ∧
    (private_stream_exists
      ⟨"success", [⟨"general", false⟩, ⟨"GENERAL", true⟩]⟩ "General" = false) ∧
    (private_stream_exists ⟨"error", [⟨"General", true⟩]⟩ "general" = false) ∧
    (private_stream_exists ⟨"success", [⟨"random", true⟩]⟩ "general" = false) := by
  refine ⟨?_, ?_, ?_, by decide, by decide, by decide, by decide⟩
  · intro res name h
    rw [private_stream_exists, if_pos h]
  · intro res name h
    rw [private_stream_exists, h]
    split <;> rfl
  · intro res name s hres h
    rw [private_stream_exists, if_neg (by simp [hres]), h]

/-- Witness for C9: the found-stream clause applied to a listing holding
a private stream named `Secret`, looked up as `secret`. -/
theorem private_stream_exists_spec_witness :
    private_stream_exists ⟨"success", [⟨"Secret", true⟩]⟩ "secret" = true :=
  private_stream_exists_spec.2.2.1 ⟨"success", [⟨"Secret", true⟩]⟩ "secret"
    ⟨"Secret", true⟩ rfl (by decide)
/-- Arena of Python list objects: cell `r` holds the list object that
reference `r` points to; allocating a fresh object appends a cell. -/
abbrev Heap := List (List Int)

/-- Dereference a list object. -/
def heapRead (h : Heap) (r : Nat) : List Int := h.getD r []

/-- In-place mutation of a list object. -/
def heapWrite (h : Heap) (r : Nat) (v : List Int) : Heap := h.set r v

/-- Reading through one reference is unaffected by a write through a
different reference. -/
theorem heapRead_write_ne (h : Heap) (i j : Nat) (v : List Int)
    (hij : i ≠ j) : heapRead (heapWrite h i v) j = heapRead h j := by
  rw [heapRead, heapRead, heapWrite, List.getD_eq_getElem?_getD,
    List.getD_eq_getElem?_getD, List.getElem?_set_ne hij]

/-- Reading a valid reference is unaffected by allocations. -/
theorem heapRead_append (h h2 : Heap) (j : Nat) (hj : j < h.length) :
    heapRead (h ++ h2) j = heapRead h j := by
  rw [heapRead, heapRead, List.getD_eq_getElem?_getD,
    List.getD_eq_getElem?_getD, List.getElem?_append, if_pos hj]

/-- Reference-level model of the inner loop of `Client.subscribe_users`:
`cref` points to the mutable `user_id_chunk` list object, and
`user_id_chunk.remove(principal)` is an in-place write through `cref`.
Returns the loop outcome paired with the final heap. -/
def chunkLoopH (cref : Nat) : Heap → List ApiResult →
    Run (Bool × List ApiResult) × Heap
  | h, [] => (Run.outOfTrace, h)
  | h, r :: rest =>
    if r.result == "success" then (Run.ok (true, rest), h)
    else
      match r.code with
      | none => (Run.keyError, h)
      | some c =>
        if c == "UNAUTHORIZED_PRINCIPAL" then
          match r.principal with
          | some p =>
            if p ∈ heapRead h cref then
              chunkLoopH cref
                (heapWrite h cref ((heapRead h cref).erase p)) rest
            else (Run.valueError, h)
          | none => (Run.ok (false, rest), h)
        else (Run.ok (false, rest), h)

/-- The inner loop leaves the heap size unchanged: it only overwrites the
chunk cell, never allocates. -/
theorem chunkLoopH_length (cref : Nat) :
    ∀ (trace : List ApiResult) (h : Heap),
      ((chunkLoopH cref h trace).2).length = h.length := by
  intro trace
  induction trace with
  | nil => intro h; rfl
  | cons r rest ih =>
    intro h
    rw [chunkLoopH]
    split
    · rfl
    · split
      · rfl
      · split
        · split
          · split
            · rw [ih]
              simp [heapWrite]
            · rfl
          · rfl
        · rfl

/-- The inner loop writes only through the chunk reference `cref`: every
other reference still dereferences to the same object afterwards. -/
theorem chunkLoopH_frame (cref : Nat) :
    ∀ (trace : List ApiResult) (h : Heap) (j : Nat), j ≠ cref →
      heapRead ((chunkLoopH cref h trace).2) j = heapRead h j := by
  intro trace
  induction trace with
  | nil => intro h j hj; rfl
  | cons r rest ih =>
    intro h j hj
    rw [chunkLoopH]
    split
    · rfl
    · split
      · rfl
      · split
        · split
          · split
            · rw [ih _ j hj, heapRead_write_ne _ _ _ _ (Ne.symm hj)]
            · rfl
          · rfl
        · rfl

/-- Chunk start indices `range(0, n, chunk_size)` of the outer loop, for
`chunk_size = 100`. -/
def chunkStarts (n : Nat) : List Nat :=
  (List.range ((n + 99) / 100)).map (fun k => k * 100)

/-- Reference-level model of the outer loop of `Client.subscribe_users`:
each iteration allocates a fresh list object holding the slice
`user_ids[i : i + 100]` of the object `uref` points to (a slice is a
copy), then runs the inner loop on that fresh object. -/
def subscribe_users_goH (uref : Nat) : List Nat → Heap → List ApiResult →
    Bool → Run Bool × Heap
  | [], h, _, success => (Run.ok success, h)
  | i :: is, h, trace, success =>
    match chunkLoopH h.length
        (h ++ [((heapRead h uref).drop i).take 100]) trace with
    | (Run.ok (chunkOk, rest), h2) =>
      subscribe_users_goH uref is h2 rest (success && chunkOk)
    | (Run.keyError, h2) => (Run.keyError, h2)
    | (Run.valueError, h2) => (Run.valueError, h2)
    | (Run.outOfTrace, h2) => (Run.outOfTrace, h2)

/-- The outer loop never writes through a reference that was valid before
it ran: chunk objects are fresh allocations. -/
theorem subscribe_users_goH_frame (uref : Nat) :
    ∀ (starts : List Nat) (h : Heap) (trace : List ApiResult)
      (success : Bool) (j : Nat), j < h.length →
      heapRead ((subscribe_users_goH uref starts h trace success).2) j =
        heapRead h j := by
  intro starts
  induction starts with
  | nil => intro h trace success j hj; rfl
  | cons i is ih =>
    intro h trace success j hj
    have hj1 : j < (h ++ [((heapRead h uref).drop i).take 100]).length := by
      simp only [List.length_append, List.length_cons, List.length_nil]
      omega
    have hne : j ≠ h.length := by omega
    rw [subscribe_users_goH]
    split
    all_goals rename_i heq
    case _ chunkOk rest h2 =>
      have h2eq : h2 = (chunkLoopH h.length
          (h ++ [((heapRead h uref).drop i).take 100]) trace).2 := by
        rw [heq]
      have hlen2 : h2.length = h.length + 1 := by
        rw [h2eq, chunkLoopH_length]
        simp
      have hr2 : heapRead h2 j = heapRead h j := by
        rw [h2eq, chunkLoopH_frame h.length trace _ j hne,
          heapRead_append _ _ j hj]
      rw [ih h2 rest (success && chunkOk) j (by omega), hr2]
    all_goals
      rename_i h2
      have h2eq : h2 = (chunkLoopH h.length
          (h ++ [((heapRead h uref).drop i).take 100]) trace).2 := by
        rw [heq]
      rw [h2eq, chunkLoopH_frame h.length trace _ j hne,
        heapRead_append _ _ j hj]

/-- Reference-level model of `Client.subscribe_users`: the `user_ids`
argument is the list object `uref` points to in `heap`. -/
def subscribe_usersH (heap : Heap) (uref : Nat) (stream_is_private : Bool)
    (allow_private_streams : Bool) (trace : List ApiResult) :
    Run Bool × Heap :=
  if !allow_private_streams && stream_is_private then (Run.ok false, heap)
  else subscribe_users_goH uref (chunkStarts (heapRead heap uref).length)
    heap trace true

/-- C10: the caller's `user_ids` list object is unchanged when
`subscribe_users` returns, including runs that remove identities during
`UNAUTHORIZED_PRINCIPAL` recovery: every chunk is a fresh slice copy of
the input list, so removal mutates only the copy, never the argument. -/
theorem subscribe_users_frame (heap : Heap) (uref : Nat)
    (stream_is_private allow_private_streams : Bool)
    (trace : List ApiResult) (href : uref < heap.length) :
    heapRead (subscribe_usersH heap uref stream_is_private
        allow_private_streams trace).2 uref = heapRead heap uref := by
  rw [subscribe_usersH]
  split
  · rfl
  · exact subscribe_users_goH_frame uref _ heap trace true uref href

/-- Witness for C10: a run over the two-element list object `[1, 2]` in
which identity 1 is rejected and removed from the chunk copy; the
original object still reads back as `[1, 2]`. -/
theorem subscribe_users_frame_witness :
    heapRead (subscribe_usersH [[1, 2]] 0 false false
        [⟨"error", some "UNAUTHORIZED_PRINCIPAL", some 1, none⟩, succR]).2 0 =
      heapRead [[1, 2]] 0 :=
  subscribe_users_frame [[1, 2]] 0 false false
    [⟨"error", some "UNAUTHORIZED_PRINCIPAL", some 1, none⟩, succR]
    (by decide)
